import Mathlib

/-!
# Verification of the Password Safe vault manager (`src/main.py`)

This file shallowly embeds the `Manager` class of the repository's
`main.py` and proves/refutes the frozen claims about it.

Modelling conventions:

* A Python `dict` is modelled as an insertion-ordered association list
  (`List (String × α)`): looking up a key finds its first occurrence,
  assigning to an existing key updates it in place, assigning to a fresh
  key appends at the end, and `pop`/`del` removes the first occurrence.
  This matches CPython dict semantics on the duplicate-free dicts the
  program builds.
* The cryptographic library primitives (`PBKDF2HMAC.derive`,
  `Fernet.encrypt/decrypt`, `urlsafe_b64encode/b64decode`, `gzip`,
  `ujson.dumps/loads`) are modelled symbolically: each stage is a Lean
  function on a wrapper type that records exactly the information the
  real primitive commits to, and each decoding stage inverts the
  corresponding encoding stage, with `Fernet.decrypt` failing with
  `InvalidToken` whenever the key it is given differs from the key the
  token was built with.  This is the standard symbolic model of
  authenticated encryption; the claims under verification are about the
  pipeline the code composes, not about the internals of the primitives.
-/

namespace PasswordSafe

/-- Python exceptions raised by `Manager` and its library calls. -/
inductive PyErr
  | KeyError
  | ValueError
  | InvalidToken
deriving DecidableEq

/-- A Service Record: dict from account username to secret (`main.py` §data model). -/
abbrev SRec := List (String × String)

/-- The Vault Document held in `Manager._data`: dict from service name to Service Record. -/
abbrev Doc := List (String × SRec)

/-- Python `d[k]` lookup (first occurrence), `none` when the key is absent. -/
def pyGet {α : Type} (k : String) : List (String × α) → Option α
  | [] => none
  | (k', v) :: t => if k' = k then some v else pyGet k t

/-- Python `d[k] = v`: update the first occurrence in place, else append. -/
def pySet {α : Type} (k : String) (v : α) : List (String × α) → List (String × α)
  | [] => [(k, v)]
  | (k', v') :: t => if k' = k then (k, v) :: t else (k', v') :: pySet k v t

/-- Python `d.pop(k)` / `del d[k]`: remove the first occurrence of the key. -/
def pyPop {α : Type} (k : String) : List (String × α) → List (String × α)
  | [] => []
  | (k', v') :: t => if k' = k then t else (k', v') :: pyPop k t

/-- Python `k in d` membership test on dict keys. -/
def pyMem {α : Type} (k : String) (d : List (String × α)) : Bool :=
  (pyGet k d).isSome

/-! ## Key derivation (`Manager.__derive_key`) -/

/-- The hash algorithm handed to `PBKDF2HMAC` (`hashes.SHA256()`). -/
inductive HashAlg
  | SHA256
deriving DecidableEq

/-- The parameters `PBKDF2HMAC(algorithm, length, salt, iterations)` is keyed
with, together with the password fed to `kdf.derive`.  The real primitive
commits to exactly these inputs; in the symbolic model the derived bytes
are represented by the inputs themselves. -/
structure DerivedBytes where
  alg : HashAlg
  length : Nat
  salt : List Char
  iterations : Nat
  password : String
deriving DecidableEq

/-- Symbolic `PBKDF2HMAC(alg, length, salt, iterations).derive(password.encode())`. -/
def pbkdf2_derive (alg : HashAlg) (length : Nat) (salt : List Char) (iterations : Nat)
    (password : String) : DerivedBytes :=
  ⟨alg, length, salt, iterations, password⟩

/-- A Fernet key: the urlsafe-base64 encoding of 32 derived bytes. -/
structure Key where
  raw : DerivedBytes
deriving DecidableEq

/-- Symbolic `urlsafe_b64encode` applied to raw derived key bytes. -/
def urlsafe_b64encode_bytes (b : DerivedBytes) : Key :=
  ⟨b⟩

/-- `''.join(sorted(password))[::-1]`: the characters of the password sorted
ascending by code point, then reversed (the `.encode()` to UTF-8 bytes is
left implicit: it is injective on strings). -/
def salt (password : String) : List Char :=
  (List.insertionSort (· ≤ ·) password.data).reverse

namespace Manager

/-- `Manager.__derive_key`:
`urlsafe_b64encode(PBKDF2HMAC(SHA256(), 32, ''.join(sorted(password))[::-1].encode(), 480000).derive(password.encode()))`. -/
def derive_key (password : String) : Key :=
  urlsafe_b64encode_bytes (pbkdf2_derive HashAlg.SHA256 32 (salt password) 480000 password)

end Manager

/-! ## Encrypted persistence (`Manager.__read` / `Manager.write`) -/

/-- `json_dumps(data).encode()`: the UTF-8 JSON serialization of the document.
`ujson.dumps` is injective on string-keyed dicts of strings, so the bytes are
modelled by the document they encode, and `json_loads` inverts it. -/
structure Plaintext where
  doc : Doc
deriving DecidableEq

/-- Symbolic `ujson.dumps(data).encode()`. -/
def json_dumps (d : Doc) : Plaintext :=
  ⟨d⟩

/-- Symbolic `ujson.loads` on decrypted plaintext. -/
def json_loads (p : Plaintext) : Doc :=
  p.doc

/-- A Fernet token: a urlsafe-base64 string that commits to the key it was
encrypted under and to the plaintext. -/
structure FernetToken where
  key : Key
  plain : Plaintext
deriving DecidableEq

/-- Symbolic `Fernet(key).encrypt(plaintext)`. -/
def fernet_encrypt (key : Key) (p : Plaintext) : FernetToken :=
  ⟨key, p⟩

/-- Symbolic `Fernet(key).decrypt(token)`: authenticated decryption succeeds
exactly when the supplied key is the key the token was built with, and
raises `InvalidToken` otherwise. -/
def fernet_decrypt (key : Key) (t : FernetToken) : Except PyErr Plaintext :=
  if t.key = key then Except.ok t.plain else Except.error PyErr.InvalidToken

/-- `urlsafe_b64decode(token)`: the raw bytes of the base64 token. -/
structure RawBytes where
  tok : FernetToken
deriving DecidableEq

/-- Symbolic `urlsafe_b64decode` of a Fernet token. -/
def urlsafe_b64decode (t : FernetToken) : RawBytes :=
  ⟨t⟩

/-- Symbolic `urlsafe_b64encode` of raw token bytes, inverting
`urlsafe_b64decode` (Fernet tokens are padded urlsafe base64, so the
round-trip is exact). -/
def urlsafe_b64encode (r : RawBytes) : FernetToken :=
  r.tok

/-- The vault file contents: raw token bytes gzip-compressed at the recorded
compression level (`gzip_open(path, 'wb', 9)`). -/
structure VaultFile where
  raw : RawBytes
  level : Nat
deriving DecidableEq

/-- Symbolic gzip compression at a given level. -/
def gzip_compress (level : Nat) (r : RawBytes) : VaultFile :=
  ⟨r, level⟩

/-- Symbolic gzip decompression (`f.read()` through `gzip_open(path, 'rb')`). -/
def gzip_decompress (f : VaultFile) : RawBytes :=
  f.raw

namespace Manager

/-- `Manager.write`: JSON-serialize the document, Fernet-encrypt it under the
current key, base64-decode the token and gzip-compress the raw bytes at
level 9 into the vault file. -/
def write (key : Key) (d : Doc) : VaultFile :=
  gzip_compress 9 (urlsafe_b64decode (fernet_encrypt key (json_dumps d)))

/-- `Manager.__read`: a missing file (`FileNotFoundError`) yields the empty
document; otherwise gzip-decompress, base64-encode back to a token,
Fernet-decrypt under the current key and parse the JSON. -/
def read (key : Key) (disk : Option VaultFile) : Except PyErr Doc :=
  match disk with
  | none => Except.ok []
  | some f => (fernet_decrypt key (urlsafe_b64encode (gzip_decompress f))).map json_loads

end Manager

/-! ## Claims C1–C3 -/

/-- Claim C1: sealing a document with `Manager.write` under the key derived
from a password and opening the result with `Manager.__read` under the key
derived from the same password returns the same document, the on-disk
pipeline being JSON-serialize, Fernet-encrypt, base64-decode, gzip-compress
at maximum level 9, with reading reversing these steps. -/
theorem write_read_roundtrip (d : Doc) (p : String) :
    Manager.read (Manager.derive_key p) (some (Manager.write (Manager.derive_key p) d)) =
      Except.ok d ∧
    (Manager.write (Manager.derive_key p) d).level = 9 ∧
    Manager.write (Manager.derive_key p) d =
      gzip_compress 9 (urlsafe_b64decode
        (fernet_encrypt (Manager.derive_key p) (json_dumps d))) := by
  refine ⟨?_, rfl, rfl⟩
  simp [Manager.read, Manager.write, gzip_compress, gzip_decompress, urlsafe_b64decode,
    urlsafe_b64encode, fernet_encrypt, fernet_decrypt, json_dumps, json_loads, Except.map]

/-- Claim C2: opening a vault file sealed under the key derived from `p`
with the key derived from a different password `p2` fails with
`InvalidToken` (authentication failure) and never returns a document. -/
theorem wrong_password_invalid_token (d : Doc) (p p2 : String) (h : p2 ≠ p) :
    Manager.read (Manager.derive_key p2) (some (Manager.write (Manager.derive_key p) d)) =
      Except.error PyErr.InvalidToken := by
  have hk : Manager.derive_key p ≠ Manager.derive_key p2 := by
    intro he
    exact h (congrArg (fun k => k.raw.password) he).symm
  simp [Manager.read, Manager.write, gzip_compress, gzip_decompress, urlsafe_b64decode,
    urlsafe_b64encode, fernet_encrypt, fernet_decrypt, hk, Except.map]

/-- Witness for C2 at a concrete document and password pair. -/
theorem wrong_password_invalid_token_witness :
    Manager.read (Manager.derive_key "hunter22")
        (some (Manager.write (Manager.derive_key "hunter2") [("GitHub", [("alice", "p")])])) =
      Except.error PyErr.InvalidToken :=
  wrong_password_invalid_token [("GitHub", [("alice", "p")])] "hunter2" "hunter22"
    (by decide)

/-- Claim C3: for every non-empty password, `Manager.__derive_key` is
PBKDF2-HMAC-SHA256 with 480,000 iterations deriving 32 bytes, salted with
the characters of the password sorted ascending then reversed, the result
urlsafe-base64 encoded; it is deterministic and total on non-empty input. -/
theorem derive_key_spec (p : String) (h : p ≠ "") :
    Manager.derive_key p =
      urlsafe_b64encode_bytes (pbkdf2_derive HashAlg.SHA256 32 (salt p) 480000 p) ∧
    (∃ asc : List Char, asc.Perm p.data ∧ asc.Sorted (· ≤ ·) ∧ salt p = asc.reverse) ∧
    (∀ q : String, q = p → Manager.derive_key q = Manager.derive_key p) := by
  refine ⟨rfl, ⟨List.insertionSort (· ≤ ·) p.data, ?_, ?_, rfl⟩, fun q hq => by rw [hq]⟩
  · exact List.perm_insertionSort _ _
  · exact List.sorted_insertionSort _ _

/-- Witness for C3 at the concrete password `"ba"`. -/
theorem derive_key_spec_witness :
    ∃ asc : List Char, asc.Perm ("ba").data ∧ asc.Sorted (· ≤ ·) ∧ salt "ba" = asc.reverse :=
  (derive_key_spec "ba" (by decide)).2.1

/-! ## CRUD operations

Each Python method mutates `self._data` and may raise.  It is embedded as a
pure function on the document returning the exception raised (if any)
together with the document state at the moment control leaves the method,
so that partial mutation before a raise would be observable. -/

namespace Manager

/-- `Manager.add_service`: insert the record when the name is fresh,
else raise `KeyError`. -/
def add_service (name : String) (data : SRec) (d : Doc) : Option PyErr × Doc :=
  if pyMem name d = false then (none, pySet name data d)
  else (some PyErr.KeyError, d)

/-- `Manager.delete_service`: `self._data.pop(name)`, raising `KeyError`
when the service is absent. -/
def delete_service (name : String) (d : Doc) : Option PyErr × Doc :=
  if pyMem name d then (none, pyPop name d) else (some PyErr.KeyError, d)

/-- `Manager.rename_service`: raise `ValueError` when the new name is
present, else copy the record with `add_service` (looking up
`self._data[name]` first, which raises `KeyError` when absent) and then
`delete_service` the old name. -/
def rename_service (name new : String) (d : Doc) : Option PyErr × Doc :=
  if pyMem new d then (some PyErr.ValueError, d)
  else
    match pyGet name d with
    | none => (some PyErr.KeyError, d)
    | some rec =>
      match add_service new rec d with
      | (some e, d') => (some e, d')
      | (none, d') => delete_service name d'

/-- `Manager.add_account`: `username not in self._data[service]` raises
`KeyError` when the service is absent; a present username raises
`ValueError`; else the secret is inserted. -/
def add_account (service username password : String) (d : Doc) : Option PyErr × Doc :=
  match pyGet service d with
  | none => (some PyErr.KeyError, d)
  | some rec =>
    if pyMem username rec then (some PyErr.ValueError, d)
    else (none, pySet service (pySet username password rec) d)

/-- `Manager.delete_account`: `del self._data[service][username]`, raising
`KeyError` when either the service or the username is absent. -/
def delete_account (service username : String) (d : Doc) : Option PyErr × Doc :=
  match pyGet service d with
  | none => (some PyErr.KeyError, d)
  | some rec =>
    if pyMem username rec then (none, pySet service (pyPop username rec) d)
    else (some PyErr.KeyError, d)

/-- `Manager.edit_account`: with `change=True`, return `False` when the new
username equals the current one, raise `ValueError` on a conflicting new
username (the membership test `new in self._data[service]` raising
`KeyError` when the service is absent), look up the secret
`self._data[service][username]` (raising `KeyError` when the username is
absent), then `add_account` the new name and `delete_account` the old one;
with `change=False`, assign `self._data[service][username] = new`.  The
middle component is the Python return value (`False` on the no-op path,
`None` otherwise). -/
def edit_account (service username : String) (change : Bool) (new : String) (d : Doc) :
    Option PyErr × Option Bool × Doc :=
  if change then
    if new = username then (none, some false, d)
    else
      match pyGet service d with
      | none => (some PyErr.KeyError, none, d)
      | some rec =>
        if pyMem new rec then (some PyErr.ValueError, none, d)
        else
          match pyGet username rec with
          | none => (some PyErr.KeyError, none, d)
          | some pw =>
            match add_account service new pw d with
            | (some e, d') => (some e, none, d')
            | (none, d') =>
              match delete_account service username d' with
              | (e, d'') => (e, none, d'')
  else
    match pyGet service d with
    | none => (some PyErr.KeyError, none, d)
    | some rec => (none, none, pySet service (pySet username new rec) d)

end Manager

/-! ## Dict lemmas -/

theorem pyGet_pySet_self {α : Type} (k : String) (v : α) (d : List (String × α)) :
    pyGet k (pySet k v d) = some v := by
  induction d with
  | nil => simp [pyGet, pySet]
  | cons h t ih =>
    obtain ⟨k', v'⟩ := h
    by_cases hk : k' = k
    · simp [pyGet, pySet, hk]
    · simp [pyGet, pySet, hk, ih]

theorem pyGet_pySet_ne {α : Type} {k j : String} (h : k ≠ j) (v : α)
    (d : List (String × α)) : pyGet k (pySet j v d) = pyGet k d := by
  have hjk : ¬ j = k := fun he => h he.symm
  induction d with
  | nil => simp [pyGet, pySet, hjk]
  | cons hd t ih =>
    obtain ⟨k', v'⟩ := hd
    by_cases hj : k' = j
    · subst hj
      simp [pyGet, pySet, hjk]
    · simp only [pySet, if_neg hj]
      by_cases hk : k' = k
      · simp [pyGet, hk]
      · simp [pyGet, hk, ih]

theorem pyGet_pyPop_ne {α : Type} {k j : String} (h : k ≠ j)
    (d : List (String × α)) : pyGet k (pyPop j d) = pyGet k d := by
  have hjk : ¬ j = k := fun he => h he.symm
  induction d with
  | nil => simp [pyGet, pyPop]
  | cons hd t ih =>
    obtain ⟨k', v'⟩ := hd
    by_cases hj : k' = j
    · subst hj
      simp [pyGet, pyPop, hjk]
    · simp only [pyPop, if_neg hj]
      by_cases hk : k' = k
      · simp [pyGet, hk]
      · simp [pyGet, hk, ih]

/-! ## Claims C4–C7 -/

/-- Claim C4 (code bug): with `change=False` and an absent username,
`Manager.edit_account` raises nothing and silently inserts the "new
password" as a fresh account, although the claim (and the method's own
docstring) require a `KeyError`. -/
theorem edit_account_missing_user_inserted :
    Manager.edit_account "s" "u" false "x" [("s", [])] =
      (none, none, [("s", [("u", "x")])]) := by
  decide

/-- Claim C5 stated literally is false: with old `"a"` absent and new `"b"`
present, `rename_service` does not raise `KeyError` (it raises
`ValueError`, the conflict check coming first). -/
theorem rename_service_absent_old_not_keyerror :
    ¬ (pyGet "a" [("b", ([] : SRec))] = none →
        (Manager.rename_service "a" "b" [("b", [])]).1 = some PyErr.KeyError) := by
  decide

/-- Claim C5 (amended): the conflict check runs first, so `rename_service`
raises `ValueError` whenever the new name is present (including
`new = old` for a present old name), raises `KeyError` when the new name
is absent and the old one is absent too, and on success appends the
record under the new name and removes the old entry, contents
unchanged. -/
theorem rename_service_contract (d : Doc) (old new : String) :
    (pyMem new d = true → Manager.rename_service old new d = (some PyErr.ValueError, d)) ∧
    (pyMem new d = false → pyGet old d = none →
      Manager.rename_service old new d = (some PyErr.KeyError, d)) ∧
    (∀ rec : SRec, pyMem new d = false → pyGet old d = some rec →
      Manager.rename_service old new d = (none, pyPop old (pySet new rec d)) ∧
      pyGet new (pyPop old (pySet new rec d)) = some rec) := by
  refine ⟨?_, ?_, ?_⟩
  · intro hmem
    simp [Manager.rename_service, hmem]
  · intro hmem hold
    simp [Manager.rename_service, hmem, hold]
  · intro rec hmem hold
    have hne : old ≠ new := by
      intro he
      subst he
      simp [pyMem, hold] at hmem
    have hget : pyGet old (pySet new rec d) = some rec := by
      rw [pyGet_pySet_ne hne, hold]
    have hnone : pyGet new d = none := by
      cases hx : pyGet new d with
      | none => rfl
      | some v =>
        rw [pyMem, hx] at hmem
        simp at hmem
    constructor
    · simp [Manager.rename_service, Manager.add_service, Manager.delete_service,
        pyMem, hnone, hold, hget]
    · rw [pyGet_pyPop_ne (fun he => hne he.symm), pyGet_pySet_self]

/-- Witness for C5's amended contract: renaming a present service to a
fresh name moves the record. -/
theorem rename_service_contract_witness :
    Manager.rename_service "a" "c" [("a", [("u", "p")])] = (none, [("c", [("u", "p")])]) := by
  have h := ((rename_service_contract [("a", [("u", "p")])] "a" "c").2.2
    [("u", "p")] (by decide) (by decide)).1
  rw [h]
  decide

/-- Claim C6: `add_service` inserts a fresh name and raises `KeyError`
("AlreadyExists") on a present one; calling it twice with `"X"` makes
the second call fail and leaves exactly one `"X"` service. -/
theorem add_service_twice :
    Manager.add_service "X" [] [] = (none, [("X", [])]) ∧
    Manager.add_service "X" [] (Manager.add_service "X" [] []).2 =
      (some PyErr.KeyError, [("X", [])]) ∧
    ((Manager.add_service "X" [] (Manager.add_service "X" [] []).2).2.map Prod.fst)
      = ["X"] := by
  decide

/-- Claim C7: when the service exists and holds the username, an
`edit_account` username rename to the same username returns the
distinguished `False` signal and leaves the document unchanged. -/
theorem edit_account_noop_rename (d : Doc) (s u : String) (rec : SRec)
    (hs : pyGet s d = some rec) (hu : (pyGet u rec).isSome = true) :
    Manager.edit_account s u true u d = (none, some false, d) := by
  simp [Manager.edit_account]

/-- Witness for C7 on a concrete one-service document. -/
theorem edit_account_noop_rename_witness :
    Manager.edit_account "s" "alice" true "alice" [("s", [("alice", "p")])] =
      (none, some false, [("s", [("alice", "p")])]) :=
  edit_account_noop_rename [("s", [("alice", "p")])] "s" "alice" [("alice", "p")]
    (by decide) (by decide)

/-! ## Operation sequences (claims C8 and C10) -/

/-- One CRUD call with its arguments, as issued by a caller. -/
inductive Op
  | add_service (name : String) (data : SRec)
  | rename_service (name new : String)
  | delete_service (name : String)
  | add_account (service username password : String)
  | edit_account (service username : String) (change : Bool) (new : String)
  | delete_account (service username : String)

/-- Apply one CRUD call to the document, returning the raised exception (if
any) and the resulting document (`edit_account`'s boolean return value is
dropped). -/
def applyOp : Op → Doc → Option PyErr × Doc
  | Op.add_service n dt, d => Manager.add_service n dt d
  | Op.rename_service n n2, d => Manager.rename_service n n2 d
  | Op.delete_service n, d => Manager.delete_service n d
  | Op.add_account s u pw, d => Manager.add_account s u pw d
  | Op.edit_account s u c n, d =>
    ((Manager.edit_account s u c n d).1, (Manager.edit_account s u c n d).2.2)
  | Op.delete_account s u, d => Manager.delete_account s u d

/-- The document reached from the empty document by a sequence of CRUD
calls, each call leaving the document in the state `applyOp` reports. -/
def reach (ops : List Op) : Doc :=
  ops.foldl (fun d o => (applyOp o d).2) []

/-- Every username key of the Service Record is a non-empty string. -/
def srecNamesOk (r : SRec) : Bool :=
  r.all (fun kv => kv.1 != "")

/-- Every service name and every username in the document is non-empty. -/
def docNamesOk (d : Doc) : Bool :=
  d.all (fun kv => kv.1 != "" && srecNamesOk kv.2)

/-- The call passes non-empty strings in every name/username position
(secrets are unconstrained): this is what the UI layer guarantees. -/
def goodOp : Op → Bool
  | Op.add_service n dt => n != "" && srecNamesOk dt
  | Op.rename_service n n2 => n != "" && n2 != ""
  | Op.delete_service n => n != ""
  | Op.add_account s u _ => s != "" && u != ""
  | Op.edit_account s u c n => s != "" && u != "" && (!c || n != "")
  | Op.delete_account s u => s != "" && u != ""

/-! ### Preservation of `all` under the dict primitives -/

theorem all_pySet {α : Type} {p : String × α → Bool} {k : String} {v : α}
    {d : List (String × α)} (hp : p (k, v) = true) (hd : d.all p = true) :
    (pySet k v d).all p = true := by
  induction d with
  | nil => simp [pySet, hp]
  | cons h1 t ih =>
    obtain ⟨k', v'⟩ := h1
    simp only [List.all_cons, Bool.and_eq_true] at hd
    by_cases hk : k' = k
    · simp [pySet, hk, hp, hd.2]
    · simp [pySet, hk, hd.1, ih hd.2]

theorem all_pyPop {α : Type} {p : String × α → Bool} (k : String)
    {d : List (String × α)} (hd : d.all p = true) : (pyPop k d).all p = true := by
  induction d with
  | nil => simp [pyPop]
  | cons h1 t ih =>
    obtain ⟨k', v'⟩ := h1
    simp only [List.all_cons, Bool.and_eq_true] at hd
    by_cases hk : k' = k
    · simp [pyPop, hk, hd.2]
    · simp [pyPop, hk, hd.1, ih hd.2]

theorem all_pyGet {α : Type} {p : String × α → Bool} {k : String} {v : α}
    {d : List (String × α)} (hd : d.all p = true) (hg : pyGet k d = some v) :
    p (k, v) = true := by
  induction d with
  | nil => simp [pyGet] at hg
  | cons h1 t ih =>
    obtain ⟨k', v'⟩ := h1
    simp only [List.all_cons, Bool.and_eq_true] at hd
    by_cases hk : k' = k
    · rw [pyGet, if_pos hk] at hg
      cases hg
      exact hk ▸ hd.1
    · rw [pyGet, if_neg hk] at hg
      exact ih hd.2 hg

/-! ### Preservation of non-empty names, lifted to the two dict layers -/

theorem srecNamesOk_pySet {u : String} (pw : String) {r : SRec}
    (hu : (u != "") = true) (hr : srecNamesOk r = true) :
    srecNamesOk (pySet u pw r) = true := by
  rw [srecNamesOk] at hr ⊢
  exact all_pySet hu hr

theorem srecNamesOk_pyPop (u : String) {r : SRec} (hr : srecNamesOk r = true) :
    srecNamesOk (pyPop u r) = true := by
  rw [srecNamesOk] at hr ⊢
  exact all_pyPop u hr

theorem docNamesOk_pySet {s : String} {r : SRec} {d : Doc}
    (hs : (s != "") = true) (hr : srecNamesOk r = true) (hd : docNamesOk d = true) :
    docNamesOk (pySet s r d) = true := by
  rw [docNamesOk] at hd ⊢
  exact all_pySet (by simp only [hs, hr, Bool.and_self]) hd

theorem docNamesOk_pyPop (s : String) {d : Doc} (hd : docNamesOk d = true) :
    docNamesOk (pyPop s d) = true := by
  rw [docNamesOk] at hd ⊢
  exact all_pyPop s hd

theorem docNamesOk_pyGet {s : String} {r : SRec} {d : Doc}
    (hd : docNamesOk d = true) (hg : pyGet s d = some r) :
    (s != "") = true ∧ srecNamesOk r = true := by
  rw [docNamesOk] at hd
  have h := all_pyGet hd hg
  simpa using h

/-! ### Per-operation preservation of non-empty names -/

theorem add_service_namesOk {n : String} {dt : SRec} {d : Doc}
    (hn : (n != "") = true) (hdt : srecNamesOk dt = true)
    (hd : docNamesOk d = true) :
    docNamesOk (Manager.add_service n dt d).2 = true := by
  rw [Manager.add_service]
  split
  · exact docNamesOk_pySet hn hdt hd
  · exact hd

theorem delete_service_namesOk (n : String) {d : Doc} (hd : docNamesOk d = true) :
    docNamesOk (Manager.delete_service n d).2 = true := by
  rw [Manager.delete_service]
  split
  · exact docNamesOk_pyPop n hd
  · exact hd

theorem rename_service_namesOk {n n2 : String} {d : Doc}
    (hn2 : (n2 != "") = true) (hd : docNamesOk d = true) :
    docNamesOk (Manager.rename_service n n2 d).2 = true := by
  rw [Manager.rename_service]
  split
  · exact hd
  · split
    · exact hd
    · next rec hg =>
      split
      · next e d' ha =>
        have hadd : docNamesOk (Manager.add_service n2 rec d).2 = true :=
          add_service_namesOk hn2 (docNamesOk_pyGet hd hg).2 hd
        rw [ha] at hadd
        exact hadd
      · next d' ha =>
        have hadd : docNamesOk (Manager.add_service n2 rec d).2 = true :=
          add_service_namesOk hn2 (docNamesOk_pyGet hd hg).2 hd
        rw [ha] at hadd
        exact delete_service_namesOk n hadd

theorem add_account_namesOk {s u : String} (pw : String) {d : Doc}
    (hu : (u != "") = true) (hd : docNamesOk d = true) :
    docNamesOk (Manager.add_account s u pw d).2 = true := by
  rw [Manager.add_account]
  split
  · exact hd
  · next rec hg =>
    split
    · exact hd
    · obtain ⟨hs, hr⟩ := docNamesOk_pyGet hd hg
      exact docNamesOk_pySet hs (srecNamesOk_pySet pw hu hr) hd

theorem delete_account_namesOk (s u : String) {d : Doc} (hd : docNamesOk d = true) :
    docNamesOk (Manager.delete_account s u d).2 = true := by
  rw [Manager.delete_account]
  split
  · exact hd
  · next rec hg =>
    split
    · obtain ⟨hs, hr⟩ := docNamesOk_pyGet hd hg
      exact docNamesOk_pySet hs (srecNamesOk_pyPop u hr) hd
    · exact hd

theorem edit_account_namesOk {s u : String} {c : Bool} {n : String} {d : Doc}
    (hu : (u != "") = true) (hn : c = true → (n != "") = true)
    (hd : docNamesOk d = true) :
    docNamesOk (Manager.edit_account s u c n d).2.2 = true := by
  rw [Manager.edit_account]
  split
  next hc =>
    -- change=True
    have hn' : (n != "") = true := hn hc
    split
    · exact hd
    · split
      · exact hd
      · next rec hg =>
        split
        · exact hd
        · split
          · exact hd
          · next pw hgu =>
            split
            · next e d' ha =>
              have hadd : docNamesOk (Manager.add_account s n pw d).2 = true :=
                add_account_namesOk pw hn' hd
              rw [ha] at hadd
              exact hadd
            · next d' ha =>
              have hadd : docNamesOk (Manager.add_account s n pw d).2 = true :=
                add_account_namesOk pw hn' hd
              rw [ha] at hadd
              have hdel := delete_account_namesOk s u (d := d') hadd
              split
              · next e2 d'' hdl =>
                rw [hdl] at hdel
                exact hdel
  next hc =>
    -- change=False
    split
    · exact hd
    · next rec hg =>
      obtain ⟨hs, hr⟩ := docNamesOk_pyGet hd hg
      exact docNamesOk_pySet hs (srecNamesOk_pySet n hu hr) hd

/-- Each well-named CRUD call preserves the non-empty-names invariant. -/
theorem applyOp_namesOk (o : Op) (d : Doc) (hop : goodOp o = true)
    (hd : docNamesOk d = true) : docNamesOk (applyOp o d).2 = true := by
  cases o with
  | add_service n dt =>
    simp only [goodOp, Bool.and_eq_true] at hop
    exact add_service_namesOk hop.1 hop.2 hd
  | rename_service n n2 =>
    simp only [goodOp, Bool.and_eq_true] at hop
    exact rename_service_namesOk hop.2 hd
  | delete_service n =>
    exact delete_service_namesOk n hd
  | add_account s u pw =>
    simp only [goodOp, Bool.and_eq_true] at hop
    exact add_account_namesOk pw hop.2 hd
  | edit_account s u c n =>
    simp only [goodOp, Bool.and_eq_true] at hop
    refine edit_account_namesOk hop.1.2 ?_ hd
    intro hc
    have h3 := hop.2
    rw [hc] at h3
    simpa using h3
  | delete_account s u =>
    exact delete_account_namesOk s u hd

theorem foldl_namesOk (ops : List Op) :
    ∀ d : Doc, docNamesOk d = true → (∀ o ∈ ops, goodOp o = true) →
      docNamesOk (ops.foldl (fun d o => (applyOp o d).2) d) = true := by
  induction ops with
  | nil =>
    intro d hd _
    simpa using hd
  | cons o t ih =>
    intro d hd hops
    simp only [List.foldl_cons]
    exact ih _ (applyOp_namesOk o d (hops o (by simp)) hd)
      (fun o' ho' => hops o' (by simp [ho']))

/-! ## Claims C8, C10 -/

/-- Claim C8 stated literally is false: the CRUD layer never validates
names, so the single call `add_service("", {})` reaches a document with an
empty service name from the empty document. -/
theorem reach_empty_service_name :
    ¬ docNamesOk (reach [Op.add_service "" []]) = true := by
  decide

/-- Claim C8 (amended): the CRUD layer itself does not enforce non-empty
names, but every document reachable from the empty document by calls whose
name/username arguments are all non-empty (which the UI layer guarantees)
has only non-empty service names and usernames. -/
theorem reach_namesOk (ops : List Op) (h : ∀ o ∈ ops, goodOp o = true) :
    docNamesOk (reach ops) = true :=
  foldl_namesOk ops [] (by decide) h

/-- Witness for C8's amended invariant on a concrete call sequence. -/
theorem reach_namesOk_witness :
    docNamesOk (reach [Op.add_service "GitHub" [], Op.add_account "GitHub" "alice" "p"])
      = true :=
  reach_namesOk [Op.add_service "GitHub" [], Op.add_account "GitHub" "alice" "p"]
    (by decide)

/-- Claim C10: whenever a CRUD call raises, the document it leaves behind
is exactly the one it was given — every failing check happens before the
first mutation. -/
theorem crud_error_frame (o : Op) (d : Doc) (h : (applyOp o d).1.isSome = true) :
    (applyOp o d).2 = d := by
  cases o with
  | add_service n dt =>
    cases hx : pyMem n d with
    | false =>
      have hres : Manager.add_service n dt d = (none, pySet n dt d) := by
        rw [Manager.add_service]
        simp [hx]
      rw [applyOp, hres] at h
      simp at h
    | true =>
      have hres : Manager.add_service n dt d = (some PyErr.KeyError, d) := by
        rw [Manager.add_service]
        simp [hx]
      rw [applyOp, hres]
  | rename_service n n2 =>
    cases hx : pyMem n2 d with
    | true =>
      have hres : Manager.rename_service n n2 d = (some PyErr.ValueError, d) := by
        rw [Manager.rename_service]
        simp [hx]
      rw [applyOp, hres]
    | false =>
      have hnone : pyGet n2 d = none := by
        cases hy : pyGet n2 d
        · rfl
        · rw [pyMem, hy] at hx
          simp at hx
      cases hg : pyGet n d with
      | none =>
        have hres : Manager.rename_service n n2 d = (some PyErr.KeyError, d) := by
          rw [Manager.rename_service]
          simp [pyMem, hnone, hg]
        rw [applyOp, hres]
      | some rec =>
        have hne : n ≠ n2 := by
          intro he
          rw [← he, hg] at hnone
          cases hnone
        have hget : pyGet n (pySet n2 rec d) = some rec := by
          rw [pyGet_pySet_ne hne, hg]
        have hres : Manager.rename_service n n2 d =
            (none, pyPop n (pySet n2 rec d)) := by
          rw [Manager.rename_service]
          simp [Manager.add_service, Manager.delete_service, pyMem, hnone, hg, hget]
        rw [applyOp, hres] at h
        simp at h
  | delete_service n =>
    cases hx : pyMem n d with
    | true =>
      have hres : Manager.delete_service n d = (none, pyPop n d) := by
        rw [Manager.delete_service]
        simp [hx]
      rw [applyOp, hres] at h
      simp at h
    | false =>
      have hres : Manager.delete_service n d = (some PyErr.KeyError, d) := by
        rw [Manager.delete_service]
        simp [hx]
      rw [applyOp, hres]
  | add_account s u pw =>
    cases hg : pyGet s d with
    | none =>
      have hres : Manager.add_account s u pw d = (some PyErr.KeyError, d) := by
        rw [Manager.add_account]
        simp [hg]
      rw [applyOp, hres]
    | some rec =>
      cases hx : pyMem u rec with
      | true =>
        have hres : Manager.add_account s u pw d = (some PyErr.ValueError, d) := by
          rw [Manager.add_account]
          simp [hg, hx]
        rw [applyOp, hres]
      | false =>
        have hres : Manager.add_account s u pw d =
            (none, pySet s (pySet u pw rec) d) := by
          rw [Manager.add_account]
          simp [hg, hx]
        rw [applyOp, hres] at h
        simp at h
  | edit_account s u c n =>
    cases c with
    | false =>
      cases hg : pyGet s d with
      | none =>
        have hres : Manager.edit_account s u false n d = (some PyErr.KeyError, none, d) := by
          rw [Manager.edit_account]
          simp [hg]
        rw [applyOp, hres]
      | some rec =>
        have hres : Manager.edit_account s u false n d =
            (none, none, pySet s (pySet u n rec) d) := by
          rw [Manager.edit_account]
          simp [hg]
        rw [applyOp, hres] at h
        simp at h
    | true =>
      by_cases hnu : n = u
      · have hres : Manager.edit_account s u true n d = (none, some false, d) := by
          rw [Manager.edit_account]
          simp [hnu]
        rw [applyOp, hres] at h
        simp at h
      · cases hg : pyGet s d with
        | none =>
          have hres : Manager.edit_account s u true n d =
              (some PyErr.KeyError, none, d) := by
            rw [Manager.edit_account]
            simp [hnu, hg]
          rw [applyOp, hres]
        | some rec =>
          cases hx : pyMem n rec with
          | true =>
            have hres : Manager.edit_account s u true n d =
                (some PyErr.ValueError, none, d) := by
              rw [Manager.edit_account]
              simp [hnu, hg, hx]
            rw [applyOp, hres]
          | false =>
            cases hgu : pyGet u rec with
            | none =>
              have hres : Manager.edit_account s u true n d =
                  (some PyErr.KeyError, none, d) := by
                rw [Manager.edit_account]
                simp [hnu, hg, hx, hgu]
              rw [applyOp, hres]
            | some pw =>
              have hadd : Manager.add_account s n pw d =
                  (none, pySet s (pySet n pw rec) d) := by
                rw [Manager.add_account]
                simp [hg, hx]
              have hgs : pyGet s (pySet s (pySet n pw rec) d) = some (pySet n pw rec) :=
                pyGet_pySet_self s _ d
              have hgu2 : pyGet u (pySet n pw rec) = some pw := by
                rw [pyGet_pySet_ne (fun he => hnu he.symm), hgu]
              have hdel : Manager.delete_account s u (pySet s (pySet n pw rec) d) =
                  (none, pySet s (pyPop u (pySet n pw rec)) (pySet s (pySet n pw rec) d)) := by
                rw [Manager.delete_account]
                simp [hgs, pyMem, hgu2]
              have hres : Manager.edit_account s u true n d =
                  (none, none,
                   pySet s (pyPop u (pySet n pw rec)) (pySet s (pySet n pw rec) d)) := by
                rw [Manager.edit_account]
                simp [hnu, hg, hx, hgu, hadd, hdel]
              rw [applyOp, hres] at h
              simp at h
  | delete_account s u =>
    cases hg : pyGet s d with
    | none =>
      have hres : Manager.delete_account s u d = (some PyErr.KeyError, d) := by
        rw [Manager.delete_account]
        simp [hg]
      rw [applyOp, hres]
    | some rec =>
      cases hx : pyMem u rec with
      | true =>
        have hres : Manager.delete_account s u d =
            (none, pySet s (pyPop u rec) d) := by
          rw [Manager.delete_account]
          simp [hg, hx]
        rw [applyOp, hres] at h
        simp at h
      | false =>
        have hres : Manager.delete_account s u d = (some PyErr.KeyError, d) := by
          rw [Manager.delete_account]
          simp [hg, hx]
        rw [applyOp, hres]

/-- Witness for C10: a failing `delete_service` leaves the document as it
was. -/
theorem crud_error_frame_witness :
    (applyOp (Op.delete_service "x") [("y", [])]).2 = [("y", [])] :=
  crud_error_frame (Op.delete_service "x") [("y", [])] (by decide)

/-! ## Manager state and `change_password` (claim C9) -/

/-- The mutable fields of a live `Manager` (`self._key`, `self._data`)
together with the contents of the vault file at `self._path` (`none` when
no file exists). -/
structure State where
  key : Key
  data : Doc
  disk : Option VaultFile
deriving DecidableEq

namespace Manager

/-- `Manager.change_password`: re-derive the key from the new password and
store it; the method touches nothing else. -/
def change_password (password : String) (m : State) : State :=
  { m with key := derive_key password }

/-- `Manager.write` as it acts on a full state: seal the in-memory document
under the current key and replace the file contents. -/
def write_state (m : State) : State :=
  { m with disk := some (write m.key m.data) }

end Manager

/-- Claim C9: `change_password` replaces only the in-memory derived key —
the in-memory document and the on-disk file are untouched, so a vault file
sealed under the old password still opens exactly under the old password's
key afterwards. -/
theorem change_password_frame (p : String) (m : State) :
    (Manager.change_password p m).data = m.data ∧
    (Manager.change_password p m).disk = m.disk ∧
    (Manager.change_password p m).key = Manager.derive_key p ∧
    (∀ (q : String) (dd : Doc),
      m.disk = some (Manager.write (Manager.derive_key q) dd) →
      Manager.read (Manager.derive_key q) (Manager.change_password p m).disk =
        Except.ok dd) := by
  refine ⟨rfl, rfl, rfl, ?_⟩
  intro q dd hdisk
  show Manager.read (Manager.derive_key q) m.disk = Except.ok dd
  rw [hdisk]
  simp [Manager.read, Manager.write, gzip_compress, gzip_decompress, urlsafe_b64decode,
    urlsafe_b64encode, fernet_encrypt, fernet_decrypt, json_dumps, json_loads, Except.map]

/-- Witness for C9: after a password change, the untouched disk still opens
under the old key. -/
theorem change_password_frame_witness :
    Manager.read (Manager.derive_key "oldpass")
      (Manager.change_password "newpass"
        ⟨Manager.derive_key "oldpass", [("s", [("u", "p")])],
         some (Manager.write (Manager.derive_key "oldpass") [("s", [("u", "p")])])⟩).disk =
      Except.ok [("s", [("u", "p")])] :=
  (change_password_frame "newpass"
      ⟨Manager.derive_key "oldpass", [("s", [("u", "p")])],
       some (Manager.write (Manager.derive_key "oldpass") [("s", [("u", "p")])])⟩).2.2.2
    "oldpass" [("s", [("u", "p")])] rfl

end PasswordSafe
